import Mathlib

/-!
Shallow embedding of `src/demo/parser/analyser.rs` from the `parser`
repository: the analyser state machine that folds a stream of decoded
demo messages and string-table entries into a `MatchState` aggregate.

Machine integers are modelled as `Nat` (unsigned) or `Int` (for the
generic integer inputs of `Team::new` / `Class::new`); wrapping and
masking are written with explicit `% 2^w`.  The external binary
user-info parser (`crate::demo::data::UserInfo::parse_from_string_table`,
outside this file's source) is abstracted by the result value it
returns, as the spec specifies it only at its interface boundary.
-/

namespace Analyser

/-- `u8::try_from` on an arbitrary (signed) integer: succeeds exactly when
the value fits in 8 bits, as used by `Team::new` and `Class::new`. -/
def u8TryFrom (i : Int) : Option Nat :=
  if 0 ≤ i ∧ i < 256 then some i.toNat else none

/-- Team — enumerated `{Other, Spectator, Red, Blue}` (`#[repr(u8)]`). -/
inductive Team where
  | Other
  | Spectator
  | Red
  | Blue
deriving DecidableEq

/-- `Team::try_from` (derived `TryFromPrimitive`): the inverse of the
`repr(u8)` discriminants, failing on unknown values. -/
def Team.tryFromU8 (n : Nat) : Option Team :=
  match n with
  | 0 => some Team.Other
  | 1 => some Team.Spectator
  | 2 => some Team.Red
  | 3 => some Team.Blue
  | _ => none

/-- `Team::new`: `Team::try_from(u8::try_from(number).unwrap_or_default()).unwrap_or_default()`.
`u8`'s default is `0`; `Team`'s default is `Other`. -/
def Team.new (i : Int) : Team :=
  ((u8TryFrom i).getD 0 |> Team.tryFromU8).getD Team.Other

/-- Class — ten variants (`#[repr(u8)]`). -/
inductive Class where
  | Other
  | Scout
  | Sniper
  | Soldier
  | Demoman
  | Medic
  | Heavy
  | Pyro
  | Spy
  | Engineer
deriving DecidableEq

/-- The `repr(u8)` discriminant of a `Class` (`class as u8`). -/
def Class.ord : Class → Nat
  | Class.Other => 0
  | Class.Scout => 1
  | Class.Sniper => 2
  | Class.Soldier => 3
  | Class.Demoman => 4
  | Class.Medic => 5
  | Class.Heavy => 6
  | Class.Pyro => 7
  | Class.Spy => 8
  | Class.Engineer => 9

/-- `Class::try_from` (derived `TryFromPrimitive`). -/
def Class.tryFromU8 (n : Nat) : Option Class :=
  match n with
  | 0 => some Class.Other
  | 1 => some Class.Scout
  | 2 => some Class.Sniper
  | 3 => some Class.Soldier
  | 4 => some Class.Demoman
  | 5 => some Class.Medic
  | 6 => some Class.Heavy
  | 7 => some Class.Pyro
  | 8 => some Class.Spy
  | 9 => some Class.Engineer
  | _ => none

/-- `Class::new`: checked 8-bit conversion with fallback to the default
(`0`, then `Other`), exactly like `Team::new`. -/
def Class.new (i : Int) : Class :=
  ((u8TryFrom i).getD 0 |> Class.tryFromU8).getD Class.Other

/-- The construction the claim describes, written from its words:
truncate the input to its low 8 bits, then map to a known variant with
fallback to `Other`.  Compared against the source's `Team.new`. -/
def Team.specTruncNew (i : Int) : Team :=
  (Team.tryFromU8 (i % 256).toNat).getD Team.Other

/-- Amended construction for `Team`, written from the amended claim:
a checked conversion that maps any input outside `[0, 255]` to `0`
(hence `Other`), then maps known discriminants to their variants with
fallback to `Other`. -/
def Team.specCheckedNew (i : Int) : Team :=
  if i < 0 ∨ 255 < i then Team.Other
  else (Team.tryFromU8 i.toNat).getD Team.Other

/-- Amended construction for `Class`, mirrored from `Team.specCheckedNew`. -/
def Class.specCheckedNew (i : Int) : Class :=
  if i < 0 ∨ 255 < i then Class.Other
  else (Class.tryFromU8 i.toNat).getD Class.Other

/-- The construction the claim describes for `Class`, written from its
words: truncate to the low 8 bits, then map with fallback to `Other`. -/
def Class.specTruncNew (i : Int) : Class :=
  (Class.tryFromU8 (i % 256).toNat).getD Class.Other

/-- `UserId` — a newtype over `u8`. -/
structure UserId where
  val : Nat
deriving DecidableEq

/-- `impl From<u32> for UserId`: `UserId((int & 255) as u8)`; masking the
low 8 bits is `% 2^8`. -/
def UserId.fromU32 (n : Nat) : UserId := ⟨n % 256⟩

/-- `impl From<u16> for UserId`: `UserId((int & 255) as u8)`. -/
def UserId.fromU16 (n : Nat) : UserId := ⟨n % 256⟩

/-- `ClassList` — `[u8; 10]`, one counter per class variant, indexed by
the class discriminant.  Real states always have `counts.length = 10`. -/
structure ClassList where
  counts : List Nat
deriving DecidableEq

/-- `ClassList::default()`: all ten counters zero. -/
def ClassList.default : ClassList := ⟨List.replicate 10 0⟩

/-- `ClassList::iter`: `self.0.iter().copied().enumerate()
.map(|(class, count)| (Class::new(class), count)).filter(|(_, count)| *count > 0)`. -/
def ClassList.iterList (cl : ClassList) : List (Class × Nat) :=
  ((cl.counts.enum.map fun p => (Class.new p.1, p.2)).filter fun p => 0 < p.2)

/-- One step of the stable descending-by-count sort used by
`ClassList::sorted`: place `x` before the first element whose count is
not above `x`'s (`x` precedes the rest of the list in the input, so on a
count tie it stays in front — the stable behaviour of Rust's
`sort_by(|a, b| a.1.cmp(&b.1).reverse())`). -/
def sortInsert (x : Class × Nat) : List (Class × Nat) → List (Class × Nat)
  | [] => [x]
  | y :: ys => if y.2 ≤ x.2 then x :: y :: ys else y :: sortInsert x ys

/-- Stable insertion sort, descending by count: the unique stable sort
matching `classes.sort_by(|a, b| a.1.cmp(&b.1).reverse())`. -/
def stableSortDesc : List (Class × Nat) → List (Class × Nat)
  | [] => []
  | x :: xs => sortInsert x (stableSortDesc xs)

/-- `ClassList::sorted`: collect `iter()` and stably sort it descending
by count. -/
def ClassList.sorted (cl : ClassList) : List (Class × Nat) :=
  stableSortDesc cl.iterList

/-- `user_state.classes[spawn.class] += 1` — `u8` addition, so wrapping
at `2^8`; indexing is by the class discriminant. -/
def ClassList.incr (cl : ClassList) (c : Class) : ClassList :=
  ⟨cl.counts.set c.ord ((cl.counts.getD c.ord 0 + 1) % 256)⟩

/-- `ChatMessageKind` (from `usermessage.rs`, outside the analysed
source): the analyser only distinguishes `NameChange` from the rest. -/
inductive ChatMessageKind where
  | ChatAll
  | ChatTeam
  | ChatAllDead
  | ChatTeamDead
  | ChatAllSpec
  | NameChange
  | Empty
deriving DecidableEq

/-- `SayText2Message` — kind, optional sender, text (fields as used by
the analyser). -/
structure SayText2Message where
  kind : ChatMessageKind
  from_ : Option String
  text : String
deriving DecidableEq

/-- `ChatMassage` (sic) — a recorded chat entry. -/
structure ChatMassage where
  kind : ChatMessageKind
  from_ : String
  text : String
  tick : Nat
deriving DecidableEq

/-- `ChatMassage::from_message`: absent sender becomes the empty string. -/
def ChatMassage.from_message (m : SayText2Message) (tick : Nat) : ChatMassage :=
  { kind := m.kind, from_ := m.from_.getD "", text := m.text, tick := tick }

/-- `PlayerSpawnEvent` — the fields the analyser reads (`u16` raw values). -/
structure PlayerSpawnEvent where
  user_id : Nat
  class_ : Nat
  team : Nat
deriving DecidableEq

/-- `PlayerDeathEvent` — the fields the analyser reads. -/
structure PlayerDeathEvent where
  user_id : Nat
  attacker : Nat
  assister : Nat
  weapon : String
deriving DecidableEq

/-- `TeamPlayRoundWinEvent` — the fields the analyser reads; the round
time is a stored scalar (`f32`), modelled as `Rat` since the analyser
only copies it. -/
structure TeamPlayRoundWinEvent where
  team : Nat
  win_reason : Nat
  round_time : Rat
deriving DecidableEq

/-- `GameEvent` — the three event kinds the analyser handles, plus a
stand-in for every other variant (all ignored). -/
inductive GameEvent where
  | PlayerDeath (event : PlayerDeathEvent)
  | PlayerSpawn (event : PlayerSpawnEvent)
  | TeamPlayRoundWin (event : TeamPlayRoundWinEvent)
  | OtherEvent
deriving DecidableEq

/-- `Spawn` record. -/
structure Spawn where
  user : UserId
  class_ : Class
  team : Team
  tick : Nat
deriving DecidableEq

/-- `Spawn::from_event`. -/
def Spawn.from_event (event : PlayerSpawnEvent) (tick : Nat) : Spawn :=
  { user := UserId.fromU16 event.user_id
    class_ := Class.new event.class_
    team := Team.new event.team
    tick := tick }

/-- `Death` record. -/
structure Death where
  weapon : String
  victim : UserId
  assister : Option UserId
  killer : UserId
  tick : Nat
deriving DecidableEq

/-- `Death::from_event`: raw assister values `≥ 16 * 1024` are the
"no assister" sentinel. -/
def Death.from_event (event : PlayerDeathEvent) (tick : Nat) : Death :=
  let assister :=
    if event.assister < 16 * 1024 then some (UserId.fromU16 event.assister)
    else none
  { assister := assister
    tick := tick
    killer := UserId.fromU16 event.attacker
    weapon := event.weapon
    victim := UserId.fromU16 event.user_id }

/-- `Round` record. -/
structure Round where
  winner : Team
  length : Rat
  end_tick : Nat
deriving DecidableEq

/-- `Round::from_event`. -/
def Round.from_event (event : TeamPlayRoundWinEvent) (tick : Nat) : Round :=
  { winner := Team.new event.team
    length := event.round_time
    end_tick := tick }

/-- `crate::demo::data::UserInfo` — the raw record returned by the
external userinfo string-table parser, with the fields the analyser's
`From` impl reads. -/
structure RawUserInfo where
  name : String
  user_id : UserId
  steam_id : String
  entity_id : Nat
deriving DecidableEq

/-- Analyser-side `UserInfo` per-player record. -/
structure UserInfo where
  classes : ClassList
  name : String
  user_id : UserId
  steam_id : String
  entity_id : Nat
  team : Team
deriving DecidableEq

/-- `impl From<crate::demo::data::UserInfo> for UserInfo`: empty class
histogram and default (`Other`) team. -/
def UserInfo.fromRaw (info : RawUserInfo) : UserInfo :=
  { classes := ClassList.default
    name := info.name
    user_id := info.user_id
    steam_id := info.steam_id
    entity_id := info.entity_id
    team := Team.Other }

/-- The `users` field's `BTreeMap<UserId, UserInfo>`, modelled as an
association list whose order is the map's ascending-key iteration
order. -/
abbrev UsersMap := List (UserId × UserInfo)

/-- `BTreeMap::get` (first binding for the key; real states have unique
sorted keys). -/
def usersLookup : UsersMap → UserId → Option UserInfo
  | [], _ => none
  | (k, v) :: rest, key => if key = k then some v else usersLookup rest key

/-- `BTreeMap::get_mut` followed by an in-place update: apply `f` to the
binding for `key` if present, otherwise change nothing. -/
def usersModify (m : UsersMap) (key : UserId) (f : UserInfo → UserInfo) : UsersMap :=
  match m with
  | [] => []
  | (k, v) :: rest =>
    if key = k then (k, f v) :: rest else (k, v) :: usersModify rest key f

/-- `BTreeMap::entry(key).and_modify(f).or_insert_with(|| vNew)`:
modify the existing binding, or insert the new value at its sorted
position. -/
def usersUpsert (m : UsersMap) (key : UserId) (f : UserInfo → UserInfo)
    (vNew : UserInfo) : UsersMap :=
  match m with
  | [] => [(key, vNew)]
  | (k, v) :: rest =>
    if key = k then (k, f v) :: rest
    else if key.val < k.val then (key, vNew) :: (k, v) :: rest
    else (k, v) :: usersUpsert rest key f vNew

/-- `Analyser::change_name`: rename the first user (in map iteration
order) whose current name equals `fromName`. -/
def changeNameList (m : UsersMap) (fromName newName : String) : UsersMap :=
  match m with
  | [] => []
  | (k, v) :: rest =>
    if v.name = fromName then (k, { v with name := newName }) :: rest
    else (k, v) :: changeNameList rest fromName newName

/-- `UserMessage` — the analyser only handles `SayText2`. -/
inductive UserMessage where
  | SayText2 (message : SayText2Message)
  | OtherMessage
deriving DecidableEq

/-- `Message` — the kinds `handle_message` inspects, plus a stand-in for
the ignored rest.  A `ServerInfo` message carries its
`interval_per_tick` scalar. -/
inductive Message where
  | ServerInfo (interval_per_tick : Rat)
  | GameEvent (event : GameEvent)
  | UserMessage (message : UserMessage)
  | OtherKind
deriving DecidableEq

/-- Errors from the external userinfo parser (contents irrelevant to the
analyser, which discards them). -/
inductive ParseError where
  | decodeFailure
deriving DecidableEq

/-- `MatchState` — the aggregate root. -/
structure MatchState where
  chat : List ChatMassage
  users : UsersMap
  deaths : List Death
  rounds : List Round
  start_tick : Nat
  interval_per_tick : Rat
deriving DecidableEq

/-- `MatchState::default()`. -/
def MatchState.default : MatchState :=
  { chat := [], users := [], deaths := [], rounds := []
    start_tick := 0, interval_per_tick := 0 }

/-- The `Analyser` handler: the match state plus the (never written,
never read) entity-id → user-id reconciliation map. -/
structure AnalyserState where
  state : MatchState
  user_id_map : List (Nat × UserId)
deriving DecidableEq

/-- `Analyser::new()` / `Analyser::default()`. -/
def AnalyserState.new : AnalyserState :=
  { state := MatchState.default, user_id_map := [] }

/-- `Analyser::change_name` lifted to the analyser. -/
def AnalyserState.change_name (a : AnalyserState) (fromName newName : String) :
    AnalyserState :=
  { a with state := { a.state with
      users := changeNameList a.state.users fromName newName } }

/-- `Analyser::handle_user_message`: a `SayText2` of the name-change
kind with a present sender renames; any other `SayText2` appends a chat
entry; other user messages are ignored. -/
def AnalyserState.handle_user_message (a : AnalyserState) (message : UserMessage)
    (tick : Nat) : AnalyserState :=
  match message with
  | UserMessage.SayText2 text_message =>
    if text_message.kind = ChatMessageKind.NameChange then
      match text_message.from_ with
      | some fromName => a.change_name fromName text_message.text
      | none => a
    else
      { a with state := { a.state with
          chat := a.state.chat ++ [ChatMassage.from_message text_message tick] } }
  | UserMessage.OtherMessage => a

/-- `Analyser::handle_event`: deaths append unconditionally; spawns
update an existing user's histogram and team; round wins append unless
the win reason is the time-limit sentinel `6`. -/
def AnalyserState.handle_event (a : AnalyserState) (event : GameEvent)
    (tick : Nat) : AnalyserState :=
  match event with
  | GameEvent.PlayerDeath event =>
    { a with state := { a.state with
        deaths := a.state.deaths ++ [Death.from_event event tick] } }
  | GameEvent.PlayerSpawn event =>
    let spawn := Spawn.from_event event tick
    { a with state := { a.state with
        users := usersModify a.state.users spawn.user fun user_state =>
          { user_state with
              classes := user_state.classes.incr spawn.class_
              team := spawn.team } } }
  | GameEvent.TeamPlayRoundWin event =>
    if event.win_reason ≠ 6 then
      { a with state := { a.state with
          rounds := a.state.rounds ++ [Round.from_event event tick] } }
    else a
  | GameEvent.OtherEvent => a

/-- `Analyser::handle_message`: the start-tick rule runs first for every
message, then the kind dispatch. -/
def AnalyserState.handle_message (a : AnalyserState) (message : Message)
    (tick : Nat) : AnalyserState :=
  let a :=
    if a.state.start_tick = 0 then
      { a with state := { a.state with start_tick := tick } }
    else a
  match message with
  | Message.ServerInfo interval =>
    { a with state := { a.state with interval_per_tick := interval } }
  | Message.GameEvent event => a.handle_event event tick
  | Message.UserMessage message => a.handle_user_message message tick
  | Message.OtherKind => a

/-- `Analyser::parse_user_info` — the external parser's call is replaced
by its result.  On a decode failure the `?` operator returns before any
state is touched; on `Ok(Some _)` the `users` entry is modified (entity
id refresh) or inserted (fresh record from the raw parse). -/
def AnalyserState.parse_user_info (a : AnalyserState)
    (parsed : Except ParseError (Option RawUserInfo)) :
    Except ParseError AnalyserState :=
  match parsed with
  | Except.error e => Except.error e
  | Except.ok none => Except.ok a
  | Except.ok (some user_info) =>
    Except.ok { a with state := { a.state with
        users := usersUpsert a.state.users user_info.user_id
          (fun info => { info with entity_id := user_info.entity_id })
          (UserInfo.fromRaw user_info) } }

/-- `Analyser::handle_string_entry`: only the `"userinfo"` table
matters, and `let _ = self.parse_user_info(...)` discards any error (the
failing path never touched the state). -/
def AnalyserState.handle_string_entry (a : AnalyserState) (table : String)
    (_index : Nat) (parsed : Except ParseError (Option RawUserInfo)) :
    AnalyserState :=
  if table = "userinfo" then
    match a.parse_user_info parsed with
    | Except.ok a2 => a2
    | Except.error _ => a
  else a

/-- Deliver a sequence of `(tick, message)` pairs to `handle_message`,
in order. -/
def runMessages (a : AnalyserState) : List (Nat × Message) → AnalyserState
  | [] => a
  | (tick, message) :: rest => runMessages (a.handle_message message tick) rest

/-- Written from the claim's words for the amended start-tick rule: the
tick of the first delivered message whose tick is nonzero, or `0` when
every delivered tick is zero. -/
def firstNonzeroTick : List Nat → Nat
  | [] => 0
  | t :: ts => if t ≠ 0 then t else firstNonzeroTick ts

/-- The `BTreeMap` representation invariant: strictly ascending keys. -/
def sortedKeys (m : UsersMap) : Prop :=
  List.Pairwise (fun p q => p.1.val < q.1.val) m

/-! ### Lemmas about the association-list map operations -/

theorem usersModify_of_none {m : UsersMap} {key : UserId}
    {f : UserInfo → UserInfo} (h : usersLookup m key = none) :
    usersModify m key f = m := by
  induction m with
  | nil => rfl
  | cons p rest ih =>
    obtain ⟨k, v⟩ := p
    by_cases hk : key = k
    · simp [usersLookup, hk] at h
    · simp only [usersLookup, if_neg hk] at h
      simp [usersModify, if_neg hk, ih h]

theorem usersLookup_usersModify {m : UsersMap} {key : UserId} {info : UserInfo}
    {f : UserInfo → UserInfo} (h : usersLookup m key = some info) (k : UserId) :
    usersLookup (usersModify m key f) k =
      if k = key then some (f info) else usersLookup m k := by
  induction m with
  | nil => simp [usersLookup] at h
  | cons p rest ih =>
    obtain ⟨k0, v0⟩ := p
    by_cases hk : key = k0
    · subst hk
      simp [usersLookup] at h
      subst h
      by_cases hkey : k = key
      · simp [usersModify, usersLookup, hkey]
      · simp [usersModify, usersLookup, hkey]
    · simp only [usersLookup, if_neg hk] at h
      by_cases hk2 : k = k0
      · subst hk2
        have : ¬ k = key := fun hc => hk (hc ▸ rfl)
        simp [usersModify, usersLookup, if_neg hk, this]
      · simp [usersModify, usersLookup, if_neg hk, if_neg hk2, ih h]

theorem usersLookup_of_forall_lt {m : UsersMap} {key : UserId}
    (h : ∀ p ∈ m, key.val < p.1.val) : usersLookup m key = none := by
  induction m with
  | nil => rfl
  | cons p rest ih =>
    obtain ⟨k0, v0⟩ := p
    have hne : ¬ key = k0 := by
      intro hc
      have := h (k0, v0) (by simp)
      simp [hc] at this
    simp only [usersLookup, if_neg hne]
    exact ih fun q hq => h q (by simp [hq])

theorem usersLookup_usersUpsert_of_mem {m : UsersMap} {key : UserId}
    {info : UserInfo} {f : UserInfo → UserInfo} {vNew : UserInfo}
    (hs : sortedKeys m) (h : usersLookup m key = some info) (k : UserId) :
    usersLookup (usersUpsert m key f vNew) k =
      if k = key then some (f info) else usersLookup m k := by
  induction m with
  | nil => simp [usersLookup] at h
  | cons p rest ih =>
    obtain ⟨k0, v0⟩ := p
    rw [sortedKeys, List.pairwise_cons] at hs
    by_cases hk : key = k0
    · subst hk
      simp [usersLookup] at h
      subst h
      by_cases hkey : k = key
      · simp [usersUpsert, usersLookup, hkey]
      · simp [usersUpsert, usersLookup, hkey]
    · simp only [usersLookup, if_neg hk] at h
      have hlt : ¬ key.val < k0.val := by
        intro hcontra
        have : usersLookup rest key = none :=
          usersLookup_of_forall_lt fun q hq => Nat.lt_trans hcontra (hs.1 q hq)
        rw [this] at h
        exact Option.noConfusion h
      by_cases hk2 : k = k0
      · subst hk2
        have : ¬ k = key := fun hc => hk (hc ▸ rfl)
        simp [usersUpsert, usersLookup, if_neg hk, if_neg hlt, this]
      · simp [usersUpsert, usersLookup, if_neg hk, if_neg hlt, if_neg hk2,
          ih hs.2 h]

theorem usersLookup_usersUpsert_of_none {m : UsersMap} {key : UserId}
    {f : UserInfo → UserInfo} {vNew : UserInfo}
    (h : usersLookup m key = none) (k : UserId) :
    usersLookup (usersUpsert m key f vNew) k =
      if k = key then some vNew else usersLookup m k := by
  induction m with
  | nil =>
    by_cases hkey : k = key <;> simp [usersUpsert, usersLookup, hkey]
  | cons p rest ih =>
    obtain ⟨k0, v0⟩ := p
    by_cases hk : key = k0
    · simp [usersLookup, hk] at h
    · simp only [usersLookup, if_neg hk] at h
      by_cases hlt : key.val < k0.val
      · by_cases hkey : k = key
        · simp [usersUpsert, usersLookup, if_neg hk, if_pos hlt, hkey]
        · simp [usersUpsert, usersLookup, if_neg hk, if_pos hlt, hkey]
      · by_cases hk2 : k = k0
        · subst hk2
          have : ¬ k = key := fun hc => hk (hc ▸ rfl)
          simp [usersUpsert, usersLookup, if_neg hk, if_neg hlt, this]
        · simp [usersUpsert, usersLookup, if_neg hk, if_neg hlt, if_neg hk2,
            ih h]

theorem changeNameList_of_no_match {m : UsersMap} {fromName newName : String}
    (h : ∀ p ∈ m, p.2.name ≠ fromName) :
    changeNameList m fromName newName = m := by
  induction m with
  | nil => rfl
  | cons p rest ih =>
    obtain ⟨k, v⟩ := p
    have hv : ¬ v.name = fromName := h (k, v) (by simp)
    simp only [changeNameList, if_neg hv]
    rw [ih fun q hq => h q (by simp [hq])]

theorem changeNameList_decomp {pre post : UsersMap} {k : UserId} {u : UserInfo}
    {fromName newName : String} (hpre : ∀ p ∈ pre, p.2.name ≠ fromName)
    (hu : u.name = fromName) :
    changeNameList (pre ++ (k, u) :: post) fromName newName =
      pre ++ (k, { u with name := newName }) :: post := by
  induction pre with
  | nil => simp [changeNameList, hu]
  | cons p rest ih =>
    obtain ⟨k0, v0⟩ := p
    have hv : ¬ v0.name = fromName := hpre (k0, v0) (by simp)
    simp only [List.cons_append, changeNameList, if_neg hv]
    exact congrArg _ (ih fun q hq => hpre q (by simp [hq]))

/-! ### Start-tick bookkeeping lemmas -/

theorem handle_event_start_tick (a : AnalyserState) (event : GameEvent)
    (tick : Nat) :
    (a.handle_event event tick).state.start_tick = a.state.start_tick := by
  cases event with
  | PlayerDeath event => rfl
  | PlayerSpawn event => rfl
  | TeamPlayRoundWin event =>
    simp only [AnalyserState.handle_event]
    split <;> rfl
  | OtherEvent => rfl

theorem handle_user_message_start_tick (a : AnalyserState)
    (message : UserMessage) (tick : Nat) :
    (a.handle_user_message message tick).state.start_tick =
      a.state.start_tick := by
  cases message with
  | OtherMessage => rfl
  | SayText2 tm =>
    simp only [AnalyserState.handle_user_message]
    split
    · cases tm.from_ <;> rfl
    · rfl

theorem handle_message_start_tick (a : AnalyserState) (message : Message)
    (tick : Nat) :
    (a.handle_message message tick).state.start_tick =
      if a.state.start_tick = 0 then tick else a.state.start_tick := by
  by_cases h : a.state.start_tick = 0 <;>
    cases message <;>
      simp [AnalyserState.handle_message, h, handle_event_start_tick,
        handle_user_message_start_tick]

theorem runMessages_start_tick_stable :
    ∀ (msgs : List (Nat × Message)) (a : AnalyserState),
      a.state.start_tick ≠ 0 →
      (runMessages a msgs).state.start_tick = a.state.start_tick := by
  intro msgs
  induction msgs with
  | nil => intro a _; rfl
  | cons p rest ih =>
    intro a h
    obtain ⟨t, msg⟩ := p
    have h1 : (a.handle_message msg t).state.start_tick = a.state.start_tick := by
      rw [handle_message_start_tick, if_neg h]
    rw [runMessages, ih _ (by rw [h1]; exact h), h1]

theorem runMessages_start_tick_of_zero :
    ∀ (msgs : List (Nat × Message)) (a : AnalyserState),
      a.state.start_tick = 0 →
      (runMessages a msgs).state.start_tick =
        firstNonzeroTick (msgs.map Prod.fst) := by
  intro msgs
  induction msgs with
  | nil => intro a h; simpa [runMessages, firstNonzeroTick] using h
  | cons p rest ih =>
    intro a h
    obtain ⟨t, msg⟩ := p
    have h1 : (a.handle_message msg t).state.start_tick = t := by
      rw [handle_message_start_tick, if_pos h]
    by_cases ht : t = 0
    · subst ht
      rw [runMessages, ih _ h1]
      simp [firstNonzeroTick]
    · rw [runMessages, runMessages_start_tick_stable rest _ (by rw [h1]; exact ht),
        h1]
      simp [firstNonzeroTick, ht]

/-! ### Stable descending sort lemmas for `ClassList::sorted` -/

/-- The ordering claimed of the sorted view, written from the claim's
words: descending by count, with count ties in ascending class-ordinal
(original) order. -/
def SortedRel (a b : Class × Nat) : Prop :=
  b.2 ≤ a.2 ∧ (a.2 = b.2 → a.1.ord < b.1.ord)

theorem mem_sortInsert {y x : Class × Nat} :
    ∀ {l : List (Class × Nat)}, y ∈ sortInsert x l ↔ y = x ∨ y ∈ l := by
  intro l
  induction l with
  | nil => simp [sortInsert]
  | cons z zs ih =>
    simp only [sortInsert]
    split
    · simp [List.mem_cons]
    · simp only [List.mem_cons, ih]
      tauto

theorem perm_sortInsert (x : Class × Nat) (l : List (Class × Nat)) :
    List.Perm (sortInsert x l) (x :: l) := by
  induction l with
  | nil => exact List.Perm.refl _
  | cons y ys ih =>
    simp only [sortInsert]
    split
    · exact List.Perm.refl _
    · exact (ih.cons y).trans (List.Perm.swap x y ys)

theorem perm_stableSortDesc (l : List (Class × Nat)) :
    List.Perm (stableSortDesc l) l := by
  induction l with
  | nil => exact List.Perm.refl _
  | cons x xs ih => exact (perm_sortInsert x _).trans (ih.cons x)

theorem pairwise_sortInsert {x : Class × Nat} {l : List (Class × Nat)}
    (hl : List.Pairwise SortedRel l) (hx : ∀ y ∈ l, x.1.ord < y.1.ord) :
    List.Pairwise SortedRel (sortInsert x l) := by
  induction l with
  | nil => simp [sortInsert, List.pairwise_cons]
  | cons y ys ih =>
    rw [List.pairwise_cons] at hl
    simp only [sortInsert]
    split
    · rename_i hle
      refine List.Pairwise.cons ?_ (List.pairwise_cons.mpr hl)
      intro z hz
      rcases List.mem_cons.mp hz with rfl | hz2
      · exact ⟨hle, fun _ => hx z (by simp)⟩
      · exact ⟨Nat.le_trans (hl.1 z hz2).1 hle, fun _ => hx z (by simp [hz2])⟩
    · rename_i hgt
      refine List.Pairwise.cons ?_ (ih hl.2 fun z hz => hx z (by simp [hz]))
      intro z hz
      rcases mem_sortInsert.mp hz with rfl | hz2
      · exact ⟨Nat.le_of_lt (Nat.lt_of_not_le hgt), fun he => absurd he (by omega)⟩
      · exact hl.1 z hz2

theorem pairwise_stableSortDesc {l : List (Class × Nat)}
    (h : List.Pairwise (fun a b => a.1.ord < b.1.ord) l) :
    List.Pairwise SortedRel (stableSortDesc l) := by
  induction l with
  | nil => simp [stableSortDesc]
  | cons x xs ih =>
    rw [List.pairwise_cons] at h
    exact pairwise_sortInsert (ih h.2)
      fun y hy => h.1 y ((perm_stableSortDesc xs).subset hy)

theorem mem_enumFrom_bounds {p : Nat × Nat} :
    ∀ {n : Nat} {l : List Nat}, p ∈ List.enumFrom n l →
      n ≤ p.1 ∧ p.1 < n + l.length := by
  intro n l
  induction l generalizing n with
  | nil => intro h; simp [List.enumFrom] at h
  | cons x xs ih =>
    intro h
    simp only [List.enumFrom, List.mem_cons] at h
    rcases h with rfl | h2
    · simp
    · have := ih h2
      constructor
      · omega
      · simp only [List.length_cons]
        omega

theorem pairwise_fst_lt_enumFrom (n : Nat) (l : List Nat) :
    List.Pairwise (fun p q : Nat × Nat => p.1 < q.1) (List.enumFrom n l) := by
  induction l generalizing n with
  | nil => simp [List.enumFrom]
  | cons x xs ih =>
    simp only [List.enumFrom]
    refine List.Pairwise.cons ?_ (ih (n + 1))
    intro q hq
    have := mem_enumFrom_bounds hq
    simp only
    omega

theorem class_new_ord_of_lt {n : Nat} (h : n < 10) :
    (Class.new (n : Int)).ord = n := by
  interval_cases n <;> decide

theorem iterList_pairwise_ord {cl : ClassList} (h : cl.counts.length ≤ 10) :
    List.Pairwise (fun a b : Class × Nat => a.1.ord < b.1.ord) cl.iterList := by
  unfold ClassList.iterList
  apply List.Pairwise.sublist (List.filter_sublist _)
  rw [List.pairwise_map]
  refine List.Pairwise.imp_of_mem ?_ (pairwise_fst_lt_enumFrom 0 cl.counts)
  intro a b ha hb hab
  have ha10 : a.1 < 10 :=
    Nat.lt_of_lt_of_le (by simpa using (mem_enumFrom_bounds ha).2) h
  have hb10 : b.1 < 10 :=
    Nat.lt_of_lt_of_le (by simpa using (mem_enumFrom_bounds hb).2) h
  rw [class_new_ord_of_lt ha10, class_new_ord_of_lt hb10]
  exact hab

/-! ### Concrete fixtures used by witness theorems -/

/-- A sample per-player record with nonempty derived state. -/
def wUser : UserInfo :=
  { classes := ⟨[0, 0, 3, 0, 0, 0, 0, 0, 0, 0]⟩
    name := "alice"
    user_id := ⟨1⟩
    steam_id := "sA"
    entity_id := 4
    team := Team.Red }

/-- A sample analyser state holding one user and a nonzero start tick. -/
def wAnalyser : AnalyserState :=
  { state :=
    { chat := []
      users := [(⟨1⟩, wUser)]
      deaths := []
      rounds := []
      start_tick := 2
      interval_per_tick := 0 }
    user_id_map := [] }

/-- A raw userinfo record whose user id is already present in `wAnalyser`. -/
def wRawKnown : RawUserInfo :=
  { name := "bob", user_id := ⟨1⟩, steam_id := "sB", entity_id := 9 }

/-- A raw userinfo record whose user id is absent from `wAnalyser`. -/
def wRawFresh : RawUserInfo :=
  { name := "carol", user_id := ⟨2⟩, steam_id := "sC", entity_id := 11 }

/-! ### Claim theorems -/

/-- C1, counterexample: `Team::new` and `Class::new` do not truncate to
the low 8 bits.  At input `258`, whose low 8 bits are `2` (the `Red`
discriminant), the truncating construction described by the claim yields
`Red`, but the source's checked-conversion construction yields `Other`;
likewise `Class` at `257` (low 8 bits `1`, `Scout`). -/
theorem team_new_not_low8_trunc :
    Team.specTruncNew 258 = Team.Red ∧ Team.new 258 = Team.Other
    ∧ Class.specTruncNew 257 = Class.Scout ∧ Class.new 257 = Class.Other := by
  decide

/-- C1 (amended): for every raw integer input, `Team::new` and
`Class::new` are total and yield a defined variant, by checked
conversion of the input to 8 bits (inputs outside `[0, 255]` fall back
to the default `0`) followed by discriminant lookup with fallback to
`Other` on unknown values. -/
theorem team_class_new_total_checked (i : Int) :
    Team.new i = Team.specCheckedNew i ∧ Class.new i = Class.specCheckedNew i := by
  by_cases h : 0 ≤ i ∧ i < 256
  · have h2 : ¬ (i < 0 ∨ 255 < i) := by omega
    constructor <;>
      simp [Team.new, Class.new, u8TryFrom, Team.specCheckedNew,
        Class.specCheckedNew, h, h2]
  · have h2 : i < 0 ∨ 255 < i := by omega
    constructor <;>
      simp [Team.new, Class.new, u8TryFrom, Team.specCheckedNew,
        Class.specCheckedNew, h, h2, Team.tryFromU8, Class.tryFromU8]

/-- C2, counterexample: when the first delivered message has tick `0`,
`start_tick` does not keep the first message's tick — a later message
with tick `5` overwrites it, so the final value is nonzero. -/
theorem start_tick_overwritten_after_zero_tick :
    (runMessages AnalyserState.new
      [(0, Message.ServerInfo 0), (5, Message.ServerInfo 0)]).state.start_tick ≠ 0 := by
  decide

/-- C2 (amended): over any message sequence, `start_tick` ends at the
tick of the first delivered message whose tick is nonzero (staying at
`0` when every delivered tick is zero), and once `start_tick` is nonzero
no subsequent message ever overwrites it. -/
theorem start_tick_first_nonzero_rule (msgs : List (Nat × Message)) :
    (runMessages AnalyserState.new msgs).state.start_tick =
      firstNonzeroTick (msgs.map Prod.fst)
    ∧ ∀ (a : AnalyserState), a.state.start_tick ≠ 0 →
        (runMessages a msgs).state.start_tick = a.state.start_tick :=
  ⟨runMessages_start_tick_of_zero msgs _ rfl,
   fun a h => runMessages_start_tick_stable msgs a h⟩

/-- Witness for C2's amended theorem at concrete inputs: a first nonzero
tick `3` is kept, and a state whose start tick is already `2` is not
overwritten by a tick-`9` message. -/
theorem start_tick_first_nonzero_rule_witness :
    (runMessages AnalyserState.new
      [(3, Message.ServerInfo 0), (7, Message.ServerInfo 0)]).state.start_tick =
      firstNonzeroTick [3, 7]
    ∧ (runMessages wAnalyser [(9, Message.ServerInfo 0)]).state.start_tick =
        wAnalyser.state.start_tick :=
  ⟨(start_tick_first_nonzero_rule
      [(3, Message.ServerInfo 0), (7, Message.ServerInfo 0)]).1,
   (start_tick_first_nonzero_rule [(9, Message.ServerInfo 0)]).2 wAnalyser
      (by decide)⟩

/-- C4: when the userinfo table-entry parse fails, the error is
discarded (`handle_string_entry` returns no error to its caller) and
the entire analyser state — match state and reconciliation map — is
left unchanged. -/
theorem string_entry_parse_failure_discarded (a : AnalyserState) (idx : Nat)
    (e : ParseError) :
    a.handle_string_entry "userinfo" idx (Except.error e) = a := rfl

/-- C7: the `Death` record built from a player-death event has
`assister = none` exactly for raw assister values at or above the
`16384` sentinel, and otherwise masks the raw value to its low 8 bits;
in particular raw `16383` yields `some ⟨16383 % 256⟩` and raw `16384`
yields `none`. -/
theorem death_assister_sentinel :
    (∀ (event : PlayerDeathEvent) (tick : Nat),
      (Death.from_event event tick).assister =
        if event.assister < 16384 then some (UserId.mk (event.assister % 256))
        else none)
    ∧ (Death.from_event
        { user_id := 0, attacker := 0, assister := 16383, weapon := "" } 0).assister =
        some ⟨16383 % 256⟩
    ∧ (Death.from_event
        { user_id := 0, attacker := 0, assister := 16384, weapon := "" } 0).assister =
        none :=
  ⟨fun _ _ => rfl, by decide, by decide⟩

/-- C8: a round-win event whose raw win reason is the time-limit
sentinel `6` leaves the analyser state entirely unchanged (no `Round`
is appended, whatever the other fields), while win reason `0` appends
exactly the `Round` built from the event. -/
theorem round_win_time_limit_filtered (a : AnalyserState)
    (event : TeamPlayRoundWinEvent) (tick : Nat) :
    (event.win_reason = 6 →
      a.handle_event (GameEvent.TeamPlayRoundWin event) tick = a)
    ∧ (event.win_reason = 0 →
        (a.handle_event (GameEvent.TeamPlayRoundWin event) tick).state.rounds =
          a.state.rounds ++ [Round.from_event event tick]) := by
  constructor
  · intro h6
    simp [AnalyserState.handle_event, h6]
  · intro h0
    simp [AnalyserState.handle_event, h0]

/-- Witness for C8 at concrete events: reason `6` drops, reason `0`
appends. -/
theorem round_win_time_limit_filtered_witness :
    (wAnalyser.handle_event
      (GameEvent.TeamPlayRoundWin { team := 2, win_reason := 6, round_time := 0 }) 5 =
      wAnalyser)
    ∧ (wAnalyser.handle_event
        (GameEvent.TeamPlayRoundWin { team := 2, win_reason := 0, round_time := 0 }) 5).state.rounds =
        wAnalyser.state.rounds ++
          [Round.from_event { team := 2, win_reason := 0, round_time := 0 } 5] :=
  ⟨(round_win_time_limit_filtered wAnalyser
      { team := 2, win_reason := 6, round_time := 0 } 5).1 rfl,
   (round_win_time_limit_filtered wAnalyser
      { team := 2, win_reason := 0, round_time := 0 } 5).2 rfl⟩

/-- C3: a successfully parsed userinfo entry for an existing user id
refreshes only that record's entity-id cross-reference, preserving its
name, team and class histogram and every other user's record; for an
unknown user id a fresh `UserInfo` is inserted carrying the parsed name,
user id, steam id and entity id, with team `Other` and an empty class
histogram.  The remaining match-state components are untouched. -/
theorem userinfo_update_refresh_or_insert (a : AnalyserState)
    (u : RawUserInfo) (idx : Nat) (hs : sortedKeys a.state.users) :
    ((a.handle_string_entry "userinfo" idx (Except.ok (some u))).state.chat =
        a.state.chat
      ∧ (a.handle_string_entry "userinfo" idx (Except.ok (some u))).state.deaths =
          a.state.deaths
      ∧ (a.handle_string_entry "userinfo" idx (Except.ok (some u))).state.rounds =
          a.state.rounds
      ∧ (a.handle_string_entry "userinfo" idx (Except.ok (some u))).state.start_tick =
          a.state.start_tick
      ∧ (a.handle_string_entry "userinfo" idx
            (Except.ok (some u))).state.interval_per_tick =
          a.state.interval_per_tick)
    ∧ (∀ info, usersLookup a.state.users u.user_id = some info →
        ∀ k, usersLookup
            (a.handle_string_entry "userinfo" idx (Except.ok (some u))).state.users k =
          if k = u.user_id then some { info with entity_id := u.entity_id }
          else usersLookup a.state.users k)
    ∧ (usersLookup a.state.users u.user_id = none →
        ∀ k, usersLookup
            (a.handle_string_entry "userinfo" idx (Except.ok (some u))).state.users k =
          if k = u.user_id then some (UserInfo.fromRaw u)
          else usersLookup a.state.users k)
    ∧ (UserInfo.fromRaw u).team = Team.Other
    ∧ (UserInfo.fromRaw u).classes = ClassList.default
    ∧ (UserInfo.fromRaw u).name = u.name
    ∧ (UserInfo.fromRaw u).user_id = u.user_id
    ∧ (UserInfo.fromRaw u).steam_id = u.steam_id
    ∧ (UserInfo.fromRaw u).entity_id = u.entity_id := by
  have hred : a.handle_string_entry "userinfo" idx (Except.ok (some u)) =
      { a with state := { a.state with
          users := usersUpsert a.state.users u.user_id
            (fun info => { info with entity_id := u.entity_id })
            (UserInfo.fromRaw u) } } := rfl
  rw [hred]
  refine ⟨⟨rfl, rfl, rfl, rfl, rfl⟩, ?_, ?_, rfl, rfl, rfl, rfl, rfl, rfl⟩
  · intro info hinfo k
    exact usersLookup_usersUpsert_of_mem hs hinfo k
  · intro hnone k
    exact usersLookup_usersUpsert_of_none hnone k

/-- Witness for C3 at concrete inputs: updating the known user id `1`
keeps `alice`'s record except for the entity id, and a fresh user id `2`
is inserted as the raw parse with defaulted team and empty histogram. -/
theorem userinfo_update_refresh_or_insert_witness :
    usersLookup (wAnalyser.handle_string_entry "userinfo" 0
        (Except.ok (some wRawKnown))).state.users ⟨1⟩ =
      some { wUser with entity_id := 9 }
    ∧ usersLookup (wAnalyser.handle_string_entry "userinfo" 0
        (Except.ok (some wRawFresh))).state.users ⟨2⟩ =
      some (UserInfo.fromRaw wRawFresh) := by
  constructor
  · have h := ((userinfo_update_refresh_or_insert wAnalyser wRawKnown 0
      (by simp [sortedKeys, wAnalyser])).2.1 wUser (by decide)) ⟨1⟩
    simpa [wRawKnown] using h
  · have h := ((userinfo_update_refresh_or_insert wAnalyser wRawFresh 0
      (by simp [sortedKeys, wAnalyser])).2.2.1 (by decide)) ⟨2⟩
    simpa [wRawFresh] using h

/-- C5: a player-spawn event for a user id with an existing record
increments that user's counter for the spawned class by one (as an 8-bit
counter, so modulo `2^8`), leaves the other counters unchanged, sets
that user's team to the spawn's team, and touches nothing else; a spawn
for an unknown user id leaves the analyser state entirely unchanged. -/
theorem player_spawn_updates_known_user (a : AnalyserState)
    (event : PlayerSpawnEvent) (tick : Nat) :
    (∀ info,
      usersLookup a.state.users (Spawn.from_event event tick).user = some info →
      (∀ k, usersLookup
          (a.handle_event (GameEvent.PlayerSpawn event) tick).state.users k =
        if k = (Spawn.from_event event tick).user
        then some { info with
            classes := info.classes.incr (Spawn.from_event event tick).class_
            team := (Spawn.from_event event tick).team }
        else usersLookup a.state.users k)
      ∧ (a.handle_event (GameEvent.PlayerSpawn event) tick).state.chat =
          a.state.chat
      ∧ (a.handle_event (GameEvent.PlayerSpawn event) tick).state.deaths =
          a.state.deaths
      ∧ (a.handle_event (GameEvent.PlayerSpawn event) tick).state.rounds =
          a.state.rounds)
    ∧ (usersLookup a.state.users (Spawn.from_event event tick).user = none →
        a.handle_event (GameEvent.PlayerSpawn event) tick = a)
    ∧ (∀ (cl : ClassList) (c : Class), c.ord < cl.counts.length →
        (cl.incr c).counts.getD c.ord 0 = (cl.counts.getD c.ord 0 + 1) % 256
        ∧ ∀ j, j ≠ c.ord → (cl.incr c).counts.getD j 0 = cl.counts.getD j 0) := by
  have hred : a.handle_event (GameEvent.PlayerSpawn event) tick =
      { a with state := { a.state with
          users := usersModify a.state.users (Spawn.from_event event tick).user
            fun user_state => { user_state with
              classes := user_state.classes.incr (Spawn.from_event event tick).class_
              team := (Spawn.from_event event tick).team } } } := rfl
  refine ⟨?_, ?_, ?_⟩
  · intro info hinfo
    rw [hred]
    exact ⟨fun k => usersLookup_usersModify hinfo k, rfl, rfl, rfl⟩
  · intro hnone
    rw [hred, usersModify_of_none hnone]
  · intro cl c hc
    constructor
    · simp only [ClassList.incr, List.getD_eq_getElem?_getD]
      rw [List.getElem?_set_self' ]
      simp [List.getElem?_eq_getElem hc]
    · intro j hj
      simp only [ClassList.incr, List.getD_eq_getElem?_getD]
      rw [List.getElem?_set_ne fun hc2 => hj hc2.symm]

/-- Witness for C5 at concrete inputs: a spawn of `Sniper` for known
user id `1` bumps the `Sniper` counter from 3 to 4, and a spawn for
unknown user id `2` changes nothing. -/
theorem player_spawn_updates_known_user_witness :
    usersLookup (wAnalyser.handle_event
        (GameEvent.PlayerSpawn { user_id := 1, class_ := 2, team := 2 }) 6).state.users ⟨1⟩ =
      some { wUser with classes := ⟨[0, 0, 4, 0, 0, 0, 0, 0, 0, 0]⟩, team := Team.Red }
    ∧ wAnalyser.handle_event
        (GameEvent.PlayerSpawn { user_id := 2, class_ := 2, team := 2 }) 6 =
      wAnalyser := by
  constructor
  · have h := ((player_spawn_updates_known_user wAnalyser
      { user_id := 1, class_ := 2, team := 2 } 6).1 wUser (by decide)).1 ⟨1⟩
    rw [h]
    decide
  · exact (player_spawn_updates_known_user wAnalyser
      { user_id := 2, class_ := 2, team := 2 } 6).2.1 (by decide)

/-- C6: a name-change chat message with a present sender renames exactly
the first user (in map iteration order) whose current name equals the
sender field — or changes nothing when no name matches — and appends no
chat entry; every other chat message appends exactly one chat entry and
renames nobody. -/
theorem chat_rename_or_append (a : AnalyserState) (m : SayText2Message)
    (tick : Nat) :
    (m.kind = ChatMessageKind.NameChange →
      ∀ f, m.from_ = some f →
        (a.handle_user_message (UserMessage.SayText2 m) tick).state.chat =
          a.state.chat
        ∧ ((∀ p ∈ a.state.users, p.2.name ≠ f) →
            a.handle_user_message (UserMessage.SayText2 m) tick = a)
        ∧ (∀ (pre post : UsersMap) (k : UserId) (u : UserInfo),
            a.state.users = pre ++ (k, u) :: post →
            (∀ p ∈ pre, p.2.name ≠ f) → u.name = f →
            (a.handle_user_message (UserMessage.SayText2 m) tick).state.users =
              pre ++ (k, { u with name := m.text }) :: post))
    ∧ (m.kind ≠ ChatMessageKind.NameChange →
        a.handle_user_message (UserMessage.SayText2 m) tick =
          { a with state := { a.state with
              chat := a.state.chat ++ [ChatMassage.from_message m tick] } }) := by
  constructor
  · intro hkind f hf
    have hred : a.handle_user_message (UserMessage.SayText2 m) tick =
        { a with state := { a.state with
            users := changeNameList a.state.users f m.text } } := by
      simp [AnalyserState.handle_user_message, hkind, hf,
        AnalyserState.change_name]
    rw [hred]
    refine ⟨rfl, ?_, ?_⟩
    · intro hno
      rw [changeNameList_of_no_match hno]
    · intro pre post k u hsplit hpre hu
      simp only [hsplit]
      exact changeNameList_decomp hpre hu
  · intro hkind
    simp [AnalyserState.handle_user_message, hkind]

/-- Witness for C6 at concrete inputs: renaming `alice` to `eve`
changes only her name and appends no chat entry, and a normal chat
message appends exactly one entry. -/
theorem chat_rename_or_append_witness :
    (wAnalyser.handle_user_message (UserMessage.SayText2
        { kind := ChatMessageKind.NameChange, from_ := some "alice", text := "eve" })
        7).state.users =
      [] ++ (⟨1⟩, { wUser with name := "eve" }) :: []
    ∧ wAnalyser.handle_user_message (UserMessage.SayText2
        { kind := ChatMessageKind.ChatAll, from_ := some "alice", text := "hi" }) 7 =
      { wAnalyser with state := { wAnalyser.state with
          chat := wAnalyser.state.chat ++ [ChatMassage.from_message
            { kind := ChatMessageKind.ChatAll, from_ := some "alice", text := "hi" } 7] } } := by
  constructor
  · exact ((chat_rename_or_append wAnalyser
      { kind := ChatMessageKind.NameChange, from_ := some "alice", text := "eve" } 7).1
      rfl "alice" rfl).2.2 [] [] ⟨1⟩ wUser rfl (by simp) (by decide)
  · exact (chat_rename_or_append wAnalyser
      { kind := ChatMessageKind.ChatAll, from_ := some "alice", text := "hi" } 7).2
      (by decide)

/-- C9: the sorted view of any well-formed (`10`-slot) class histogram
lists exactly the positive-count pairs of the unsorted view, in
descending order of count with count ties in their original
ascending-ordinal order; on counts `[0,1,5,0,0,3,0,0,0,0]` it is
exactly `[(Sniper,5),(Medic,3),(Scout,1)]`. -/
theorem classlist_sorted_desc_stable :
    (∀ cl : ClassList, cl.counts.length = 10 →
      List.Pairwise SortedRel cl.sorted
      ∧ (∀ p ∈ cl.sorted, 0 < p.2)
      ∧ List.Perm cl.sorted cl.iterList)
    ∧ ClassList.sorted ⟨[0, 1, 5, 0, 0, 3, 0, 0, 0, 0]⟩ =
        [(Class.Sniper, 5), (Class.Medic, 3), (Class.Scout, 1)] := by
  constructor
  · intro cl hlen
    refine ⟨pairwise_stableSortDesc (iterList_pairwise_ord (le_of_eq hlen)), ?_,
      perm_stableSortDesc _⟩
    intro p hp
    have hp2 : p ∈ cl.iterList := (perm_stableSortDesc _).subset hp
    simp only [ClassList.iterList, List.mem_filter] at hp2
    simpa using hp2.2
  · decide

/-- Witness for C9 at the concrete histogram from the source's unit
test. -/
theorem classlist_sorted_desc_stable_witness :
    List.Pairwise SortedRel (ClassList.sorted ⟨[0, 1, 5, 0, 0, 3, 0, 0, 0, 0]⟩)
    ∧ List.Perm (ClassList.sorted ⟨[0, 1, 5, 0, 0, 3, 0, 0, 0, 0]⟩)
        (ClassList.iterList ⟨[0, 1, 5, 0, 0, 3, 0, 0, 0, 0]⟩) :=
  ⟨((classlist_sorted_desc_stable.1 ⟨[0, 1, 5, 0, 0, 3, 0, 0, 0, 0]⟩ rfl)).1,
   ((classlist_sorted_desc_stable.1 ⟨[0, 1, 5, 0, 0, 3, 0, 0, 0, 0]⟩ rfl)).2.2⟩

/-- C10: a name-change chat message whose sender field is absent leaves
the entire analyser state unchanged apart from the start-tick rule: no
rename happens and no chat entry is appended. -/
theorem rename_without_sender_noop (a : AnalyserState) (m : SayText2Message)
    (tick : Nat) (hkind : m.kind = ChatMessageKind.NameChange)
    (hfrom : m.from_ = none) :
    a.handle_message (Message.UserMessage (UserMessage.SayText2 m)) tick =
      { a with state := { a.state with
          start_tick := if a.state.start_tick = 0 then tick
            else a.state.start_tick } } := by
  by_cases h0 : a.state.start_tick = 0 <;>
    simp [AnalyserState.handle_message, AnalyserState.handle_user_message,
      hkind, hfrom, h0]

/-- Witness for C10 at a concrete sender-less rename message. -/
theorem rename_without_sender_noop_witness :
    wAnalyser.handle_message (Message.UserMessage (UserMessage.SayText2
        { kind := ChatMessageKind.NameChange, from_ := none, text := "zed" })) 7 =
      { wAnalyser with state := { wAnalyser.state with
          start_tick := if wAnalyser.state.start_tick = 0 then 7
            else wAnalyser.state.start_tick } } :=
  rename_without_sender_noop wAnalyser
    { kind := ChatMessageKind.NameChange, from_ := none, text := "zed" } 7 rfl rfl

end Analyser



